import Mathlib

/-!
Verification of the browser-side UI layer of the finbot dashboard.

The development shallowly embeds the JavaScript sources: pure helper
functions become Lean functions; the toast registry (a JS `Map` plus an id
counter) becomes an explicit state machine; handlers whose only observable
behaviour is a sequence of DOM / timer actions become functions returning a
list of effects.  JS numbers are modelled by `Nat`/`Int` (all the code under
study performs integer arithmetic) except in `paletteFor`, where a genuine
non-integer division occurs and `ℚ` together with an `Option` for the
non-finite case (`0/0`) is used.
-/

namespace Finbot

/-! ### Decimal rendering of the toast counter

`makeId` in `static/js/toast.js` renders ids as the string
`toast-${nextId}`.  To reason about distinctness of these strings we need
that the decimal rendering `Nat.repr` is injective; `decodeDigit` /
`decodeDigits` give a left inverse used to prove that.
-/

/-- Numeric value of a decimal digit character. -/
def decodeDigit (c : Char) : Nat := c.toNat - '0'.toNat

/-- Read a most-significant-first digit list back into a number. -/
def decodeDigits (l : List Char) : Nat :=
  l.foldl (fun acc c => acc * 10 + decodeDigit c) 0

/-- The id string built by `makeId` (toast.js line 27): `toast-${n}`. -/
def mkToastId (n : Nat) : String := "toast-" ++ Nat.repr n

/-! ### The toast registry (static/js/toast.js)

State: the counter `nextId` and the `Map` from id to `{ el, timeoutId }`.
The DOM element is modelled by the two fields the module writes
(`className`, `textContent`); the timer handle returned by `setTimeout` is
opaque, so only its presence is modelled (`clearTimeout` has no further
observable effect on the registry).  The JS `Map` is modelled as an
association list with `set` = replace-or-append, preserving insertion
order, exactly as `Map` behaves.
-/

/-- The DOM element of one toast: the fields toast.js writes. -/
structure ToastEl where
  className : String
  textContent : String
  deriving DecidableEq

/-- One registry entry: `{ el, timeoutId }` (toast.js line 54). -/
structure ToastEntry where
  el : ToastEl
  timeoutId : Option Int
  deriving DecidableEq

/-- The module state of toast.js: `nextId` and the `toasts` Map. -/
structure ToastState where
  nextId : Nat
  toasts : List (String × ToastEntry)
  deriving DecidableEq

/-- Model of `Map.get`: first (and, under the registry invariant, only) binding. -/
def mapGet : List (String × ToastEntry) → String → Option ToastEntry
  | [], _ => none
  | (k, v) :: rest, id => if k = id then some v else mapGet rest id

/-- Model of `Map.set`: overwrite an existing binding, else append a new one. -/
def mapSet : List (String × ToastEntry) → String → ToastEntry →
    List (String × ToastEntry)
  | [], id, v => [(id, v)]
  | (k, w) :: rest, id, v =>
    if k = id then (id, v) :: rest else (k, w) :: mapSet rest id v

/-- Model of `Map.delete`: drop the binding for the key, if any. -/
def mapDelete : List (String × ToastEntry) → String → List (String × ToastEntry)
  | [], _ => []
  | (k, v) :: rest, id => if k = id then rest else (k, v) :: mapDelete rest id

/-- Deletion on a key list, mirroring `mapDelete` on the bindings. -/
def keysErase : List String → String → List String
  | [], _ => []
  | k :: ks, id => if k = id then ks else k :: keysErase ks id

/-- The keys currently registered, in insertion order. -/
def keys (s : ToastState) : List String := s.toasts.map Prod.fst

/-- Model of `showToast(message, type = "success", ttl = 5000)` (toast.js 37-56):
increments the counter, builds the element, schedules removal when
`ttl > 0`, registers the entry and returns the new id. -/
def showToast (message ty : String) (ttl : Int) (s : ToastState) :
    String × ToastState :=
  let id := mkToastId (s.nextId + 1)
  let el : ToastEl := { className := "toast " ++ ty, textContent := message }
  let timeoutId : Option Int := if 0 < ttl then some ttl else none
  (id, { nextId := s.nextId + 1,
         toasts := mapSet s.toasts id { el := el, timeoutId := timeoutId } })

/-- Model of `updateToast(id, message, type)` (toast.js 65-78): `none` models an
argument that is not a string; the class is only replaced by a non-empty
string (`type.length`).  Returns `false` and leaves everything unchanged
when the id is not registered. -/
def updateToast (id : String) (message ty : Option String) (s : ToastState) :
    Bool × ToastState :=
  match mapGet s.toasts id with
  | none => (false, s)
  | some entry =>
    let el1 : ToastEl :=
      match message with
      | some m => { entry.el with textContent := m }
      | none => entry.el
    let el2 : ToastEl :=
      match ty with
      | some t => if t = "" then el1 else { el1 with className := "toast " ++ t }
      | none => el1
    (true, { s with toasts := mapSet s.toasts id { entry with el := el2 } })

/-- Model of `removeToast(id)` (toast.js 85-96): clears the pending timeout (no
registry effect), removes the element and deletes the binding.  Returns
`false` and leaves everything unchanged when the id is not registered. -/
def removeToast (id : String) (s : ToastState) : Bool × ToastState :=
  match mapGet s.toasts id with
  | none => (false, s)
  | some _ => (true, { s with toasts := mapDelete s.toasts id })

/-- The initial module state (toast.js lines 2-3). -/
def initState : ToastState := { nextId := 0, toasts := [] }

/-- One call into the toast API.  A fired auto-removal timeout is simply a
`doRemove` occurrence in the sequence, so arbitrary interleavings are
covered. -/
inductive ToastOp where
  | doShow (message ty : String) (ttl : Int)
  | doUpdate (id : String) (message ty : Option String)
  | doRemove (id : String)
  deriving DecidableEq

/-- State after one operation (the returned value is discarded). -/
def applyOp (s : ToastState) : ToastOp → ToastState
  | .doShow m t ttl => (showToast m t ttl s).2
  | .doUpdate id m t => (updateToast id m t s).2
  | .doRemove id => (removeToast id s).2

/-- State after a sequence of operations, from `s`. -/
def execFrom (s : ToastState) (ops : List ToastOp) : ToastState :=
  ops.foldl applyOp s

/-- State after a sequence of operations, from the initial state. -/
def execTrace (ops : List ToastOp) : ToastState := execFrom initState ops

/-- Number of `doShow` operations in a sequence. -/
def countShows : List ToastOp → Nat
  | [] => 0
  | .doShow _ _ _ :: ops => countShows ops + 1
  | .doUpdate _ _ _ :: ops => countShows ops
  | .doRemove _ :: ops => countShows ops

/-- The ids returned by the `showToast` calls of a sequence, in order. -/
def showIdsFrom (s : ToastState) : List ToastOp → List String
  | [] => []
  | .doShow m t ttl :: ops =>
    (showToast m t ttl s).1 :: showIdsFrom (applyOp s (.doShow m t ttl)) ops
  | .doUpdate id m t :: ops => showIdsFrom (applyOp s (.doUpdate id m t)) ops
  | .doRemove id :: ops => showIdsFrom (applyOp s (.doRemove id)) ops

/-- The ids returned by the `showToast` calls, from the initial state. -/
def showIds (ops : List ToastOp) : List String := showIdsFrom initState ops

/-- The ids issued and not yet removed, computed directly from the call
sequence: a show issues the next id, a remove erases it (erasing an absent
id is a no-op), an update never changes the id set. -/
def liveIdsAux : List ToastOp → Nat → List String → List String
  | [], _, live => live
  | .doShow _ _ _ :: ops, n, live => liveIdsAux ops (n + 1) (live ++ [mkToastId (n + 1)])
  | .doUpdate _ _ _ :: ops, n, live => liveIdsAux ops n live
  | .doRemove id :: ops, n, live => liveIdsAux ops n (keysErase live id)

/-- Ids issued by some `showToast` call of the sequence and not yet
removed. -/
def liveIds (ops : List ToastOp) : List String := liveIdsAux ops 0 []

/-- The registry consistency property: registered ids are distinct and
every one of them was generated by the counter (`toast-j` with
`1 ≤ j ≤ nextId`). -/
def ToastInv (s : ToastState) : Prop :=
  (keys s).Nodup ∧ ∀ k ∈ keys s, ∃ j, 1 ≤ j ∧ j ≤ s.nextId ∧ k = mkToastId j

/-- A state violating the consistency property: the registry holds
`toast-1` but the counter is still 0. -/
def badToastState : ToastState :=
  { nextId := 0,
    toasts := [(mkToastId 1,
      { el := { className := "toast success", textContent := "stale" },
        timeoutId := none })] }

/-! ### UI effects

Handlers whose observable behaviour is a sequence of DOM writes, toasts,
`setTimeout` registrations and navigations are embedded as functions
returning the list of those actions in program order. -/

/-- One observable action of a handler. -/
inductive UiEffect where
  /-- Model of `showToast(message, kind)`. -/
  | showToast (message kind : String)
  /-- Model of `renderEmpty()` in activitylog.js: switch to the empty-state view. -/
  | renderEmptyState
  /-- Model of `setNavigationDisabled(disabled)` in activitylog.js. -/
  | setNavigationDisabled (disabled : Bool)
  /-- Model of `setTimeout(callback, delayMs)`. -/
  | scheduleCall (callback : String) (delayMs : Nat)
  /-- Model of `window.location.href = location`. -/
  | redirect (location : String)
  /-- Model of `console.error(...)`. -/
  | consoleError
  /-- Write `checkbox.checked`. -/
  | setCheckboxChecked (checked : Bool)
  /-- Write `checkbox.disabled`. -/
  | setCheckboxDisabled (disabled : Bool)
  /-- Restore the text content of a button. -/
  | setButtonText (text : String)
  /-- Model of `showSyncProgress(visible)` in part_002. -/
  | showSyncProgress (visible : Bool)
  /-- Model of `updateSyncProgress(processed, total)` in part_002. -/
  | updateSyncProgress (processed total : Nat)
  deriving DecidableEq

/-- JS `v || dflt` for an optional string: the default replaces both a
missing value and the empty (falsy) string. -/
def jsOrString (v : Option String) (dflt : String) : String :=
  match v with
  | some m => if m = "" then dflt else m
  | none => dflt

/-- A failure handler performs nothing but error toasts. -/
def onlyErrorToast (effects : List UiEffect) : Prop :=
  ∀ e ∈ effects, ∃ m, e = UiEffect.showToast m "error"

/-! ### Failure branches of the three cited operations (claim C1) -/

/-- The `catch` and `finally` of `loadPage` (activitylog.js 86-94): toast, then
`renderEmpty()`, then `setNavigationDisabled(false)`. -/
def loadPageOnFailure (errMessage : String) : List UiEffect :=
  [ UiEffect.showToast ("Failed to load activity log: " ++ errMessage) "error",
    UiEffect.renderEmptyState,
    UiEffect.setNavigationDisabled false ]

/-- Model of `POLL_INTERVAL` (first_start.js line 320). -/
def POLL_INTERVAL : Nat := 1000

/-- Model of `TIMEOUT_MS` (first_start.js line 321). -/
def TIMEOUT_MS : Nat := 10 * 60 * 1000

/-- The `catch` of `pollProgress` (first_start.js 346-354): log, and either give
up with a toast and a redirect once the deadline passed, or re-schedule
`pollProgress` itself after `POLL_INTERVAL`. -/
def pollProgressOnFailure (nowMs startTs : Int) : List UiEffect :=
  if nowMs - startTs > (TIMEOUT_MS : Int) then
    [ UiEffect.consoleError,
      UiEffect.showToast "Unable to determine sync progress — continuing" "error",
      UiEffect.redirect "/" ]
  else
    [ UiEffect.consoleError,
      UiEffect.scheduleCall "pollProgress" POLL_INTERVAL ]

/-- The failure arm of the library-tracking checkbox handler
(settings.js 219-224): restore `checkbox.checked` to the unchanged
`lib.tracked`, toast, re-enable the checkbox. -/
def libraryToggleOnFailure (libName : String) (prevTracked : Bool)
    (message : Option String) : List UiEffect :=
  [ UiEffect.setCheckboxChecked prevTracked,
    UiEffect.showToast (libName ++ ": " ++ jsOrString message "Failed to update tracking") "error",
    UiEffect.setCheckboxDisabled false ]

/-! ### Coordination mechanisms (claim C2) -/

/-- Model of `scheduleSave(payload)` (part_000 59-63): cancel the pending timer, if
any, and schedule `saveSettings(payload)` after 200 ms.  The input is the
current `saveTimer` as the pending (payload, delay); the second component
of the result records whether `clearTimeout` cancelled an earlier save. -/
def scheduleSave (payload : String) (saveTimer : Option (String × Nat)) :
    Option (String × Nat) × Bool :=
  (some (payload, 200), saveTimer.isSome)

/-- The mutable flags of the first-start test-connection handler
(first_start.js 177-182). -/
structure FirstStartTestState where
  lastTestOk : Bool
  testingConnection : Bool
  testBtnDisabled : Bool
  addBtnDisabled : Bool
  deriving DecidableEq

/-- The synchronous prefix of the first-start test-button click handler
(first_start.js 196-216), up to the `fetch`: empty fields abort with a
toast; a set `testingConnection` flag aborts; otherwise the flag and the
button-disable states are set and the request goes out.  The second
component records whether the request was issued. -/
def firstStartTestClick (host port apiKey : String) (s : FirstStartTestState) :
    FirstStartTestState × Bool :=
  if host = "" ∨ port = "" ∨ apiKey = "" then (s, false)
  else if s.testingConnection then (s, false)
  else ({ s with testingConnection := true, testBtnDisabled := true,
                 addBtnDisabled := true }, true)

/-- The response data consumed by `checkSyncProgress` (part_002 387-410):
the HTTP `resp.ok` flag, `data.syncing`, and the two counters with the
falsy defaults of the source (`|| 0`, `|| 1`) applied at the use site. -/
structure SyncProgressResp where
  ok : Bool
  syncing : Bool
  processed_events : Nat
  total_events : Nat
  deriving DecidableEq

/-- How `checkSyncProgress` handles a received response (part_002
387-410): while `data.syncing` it shows the bar, updates it, and
re-schedules itself after 2000 ms. -/
def checkSyncProgressStep (r : SyncProgressResp) : List UiEffect :=
  if r.ok = false then []
  else if r.syncing then
    [ UiEffect.showSyncProgress true,
      UiEffect.updateSyncProgress r.processed_events
        (if r.total_events = 0 then 1 else r.total_events),
      UiEffect.scheduleCall "checkSyncProgress" 2000 ]
  else [ UiEffect.showSyncProgress false ]

/-- The `finally` of the settings test-connection click handler
(settings.js 82-86): restore the label and re-enable the button only after
`COOLDOWN_MS = 5000`. -/
def testConnectionCooldown (originalText : String) : List UiEffect :=
  [ UiEffect.setButtonText originalText,
    UiEffect.scheduleCall "enable-jf-test-connection-btn" 5000 ]

/-! ### The activity matrix aggregation (part_005, claim C3)

`buildMatrix` buckets activity items into a weeks × 7 grid.  With
`activity_at` in epoch seconds, `Date.UTC(d.getUTCFullYear(), ...)` for the
date built from `ts = activity_at * 1000` is the start of the UTC day,
i.e. `(ts / msPerDay) * msPerDay`, so `dayDiff` is the difference of UTC
day numbers, and `d.getUTCDay()` is `(dayNumber + 4) % 7` (day 0 of the
epoch was a Thursday).  The grid is modelled as a function from
(week index, weekday) to count. -/

/-- An activity-log item as used by `buildMatrix`; `activity_at` is epoch
seconds, with 0 standing for a missing value (`it.activity_at || 0`). -/
structure ActivityItem where
  activity_at : Nat
  deriving DecidableEq

/-- Milliseconds per day (part_005 line 49). -/
def msPerDay : Nat := 24 * 60 * 60 * 1000

/-- Model of `WEEKS = Math.ceil(days / 7)` (part_005 line 47). -/
def weeksOf (days : Nat) : Nat := (days + 6) / 7

/-- Model of `ts = Number(it.activity_at || 0) * 1000` (part_005 line 52). -/
def itemTs (it : ActivityItem) : Nat := it.activity_at * 1000

/-- The UTC day number of the item: `Date.UTC(d.getUTCFullYear(), ...)` is the
start of the UTC day of `ts`, i.e. `(ts / msPerDay) * msPerDay`. -/
def itemDayNumber (it : ActivityItem) : Nat := itemTs it / msPerDay

/-- Model of `index = days - 1 - dayDiff` (part_005 line 60), where `dayDiff` is
the difference of UTC day numbers (part_005 55-59). -/
def itemIndex (nowDay days : Nat) (it : ActivityItem) : Int :=
  (days : Int) - 1 - ((nowDay : Int) - (itemDayNumber it : Int))

/-- Model of `buckets[w][wd] += 1` on the functional grid. -/
def bumpBucket (b : Nat → Nat → Nat) (w wd : Nat) : Nat → Nat → Nat :=
  fun w' wd' => if w' = w ∧ wd' = wd then b w' wd' + 1 else b w' wd'

/-- The body of the `items.forEach` of `buildMatrix` (part_005 51-66) for
one item: skip a falsy timestamp, compute the day index relative to the
`days`-long window ending today, skip out-of-range indices, and bump the
bucket at (⌊index / 7⌋, UTC weekday); `getUTCDay()` is
`(dayNumber + 4) % 7`. -/
def processItem (nowDay days : Nat) (b : Nat → Nat → Nat) (it : ActivityItem) :
    Nat → Nat → Nat :=
  if itemTs it = 0 then b else
  let index : Int := itemIndex nowDay days it
  if index < 0 ∨ (days : Int) ≤ index then b else
  let weekIdx : Int := index / 7
  let weekday : Nat := (itemDayNumber it + 4) % 7
  if weekIdx < 0 ∨ (weeksOf days : Int) ≤ weekIdx then b else
  bumpBucket b weekIdx.toNat weekday

/-- The bucket grid built by the first loop of `buildMatrix` (part_005 48-66);
`nowDay` is the UTC day number of today. -/
def buildMatrixBuckets (nowDay days : Nat) (items : List ActivityItem) :
    Nat → Nat → Nat :=
  items.foldl (processItem nowDay days) (fun _ _ => 0)

/-- Specification-side predicate: the item lands in cell (w, wd).  The
grid being a plain per-cell count of this one-line predicate is the formal
content of "no nontrivial data transformation". -/
def hitsCell (nowDay days w wd : Nat) (it : ActivityItem) : Bool :=
  decide (itemTs it ≠ 0)
    && decide (0 ≤ itemIndex nowDay days it)
    && decide (itemIndex nowDay days it < (days : Int))
    && decide (itemIndex nowDay days it / 7 < (weeksOf days : Int))
    && decide (w = (itemIndex nowDay days it / 7).toNat)
    && decide (wd = (itemDayNumber it + 4) % 7)

/-! ### The colour palette (libraries.js 129-163 and part_004 115-149,
claim C7)

JS numbers appear here in a genuinely non-integral way:
`Math.round((i * (base.length - 1)) / (n - 1))`.  The division is modelled
on `ℚ` with `none` for a zero denominator (`0/0 = NaN`, `x/0 = Infinity`);
indexing an array at a non-finite or out-of-range position yields
`undefined`, modelled as `none`. -/

/-- The nine fixed colours (`base`). -/
def paletteBase : List String :=
  [ "#c3d1dd", "#adbfce", "#98aec0", "#829cb2", "#6d8ca3",
    "#577b95", "#416b88", "#285b7a", "#004c6d" ]

/-- JS division, `none` when the denominator is 0 (NaN or ±Infinity). -/
def jsDivQ (a b : ℚ) : Option ℚ := if b = 0 then none else some (a / b)

/-- Model of `Math.round` on a finite number: half-up, i.e. ⌊x + 1/2⌋. -/
def jsRound (q : ℚ) : ℤ := ⌊q + 1 / 2⌋

/-- Model of `base[idx]` for `idx` the rounded division: `undefined` (`none`) when
the division was not finite or the rounded index falls outside the
array. -/
def baseIndex (idx : Option ℚ) : Option String :=
  match idx with
  | none => none
  | some q =>
    let i := jsRound q
    if 0 ≤ i then paletteBase.get? i.toNat else none

/-- The `hsl(h s% l%)` colour string of the overflow branch. -/
def hslColor (h s l : ℤ) : String :=
  "hsl(" ++ toString h ++ " " ++ toString s ++ "% " ++ toString l ++ "%)"

/-- Model of `paletteFor(n)` (libraries.js 129-163): an element is `some` colour
string or `none` for `undefined`. -/
def paletteFor (n : ℤ) : List (Option String) :=
  if n ≤ 0 then []
  else if n ≤ (paletteBase.length : ℤ) then
    (List.range n.toNat).map (fun (i : ℕ) =>
      baseIndex (jsDivQ ((i : ℚ) * ((paletteBase.length : ℚ) - 1)) ((n : ℚ) - 1)))
  else
    (List.range n.toNat).map (fun (i : ℕ) =>
      let t : ℚ := if n = 1 then 1 / 2 else (i : ℚ) / ((n : ℚ) - 1)
      some (hslColor 198 52 (jsRound (32 + (76 - 32) * t))))

/-! ### Pagination (activitylog.js, claims C1 and C6) -/

/-- Model of `MAX_PAGE_BUTTONS` (activitylog.js line 15). -/
def MAX_PAGE_BUTTONS : Int := 7

/-- What `renderPaginationControls` renders: the disabled states of the four
navigation buttons and the numbered page buttons, in order. -/
structure PaginationView where
  firstDisabled : Bool
  prevDisabled : Bool
  nextDisabled : Bool
  lastDisabled : Bool
  pages : List Int
  deriving DecidableEq

/-- The pages emitted by `for (let p = start; p <= end; p++)`. -/
def pagesFrom (a b : Int) : List Int :=
  (List.range (b + 1 - a).toNat).map (fun (i : ℕ) => a + (i : Int))

/-- The `start`/`end` window computed by `renderPaginationControls`
(activitylog.js 178-184): `half = Math.floor(MAX_PAGE_BUTTONS / 2)`, then
`start = max(1, current - half)`, `end = min(totalPages, start +
MAX_PAGE_BUTTONS - 1)`, and the final widening of `start` when the window
came out short. -/
def paginationWindow (current totalPages : Int) : Int × Int :=
  let half := MAX_PAGE_BUTTONS / 2
  let start := max 1 (current - half)
  let stop := min totalPages (start + MAX_PAGE_BUTTONS - 1)
  let start' := if stop - start + 1 < MAX_PAGE_BUTTONS
                then max 1 (stop - MAX_PAGE_BUTTONS + 1) else start
  (start', stop)

/-- Model of `renderPaginationControls(current, totalPages)` (activitylog.js
170-199): `first`/`prev` disabled on `current <= 1`, `next`/`last` on
`current >= totalPages`, and one numbered button per page of the
window. -/
def renderPaginationControls (current totalPages : Int) : PaginationView :=
  { firstDisabled := decide (current ≤ 1),
    prevDisabled := decide (current ≤ 1),
    nextDisabled := decide (totalPages ≤ current),
    lastDisabled := decide (totalPages ≤ current),
    pages := pagesFrom (paginationWindow current totalPages).1
                       (paginationWindow current totalPages).2 }

/-! ### Fetch targets (claim C5)

Every `fetch` in the eleven files.  Requests built from a template keep
their dynamic parts as parameters. -/

/-- Every fixed request path occurring in a `fetch` call, per file. -/
def staticFetchPaths : List String :=
  [ -- static/js/first_start.js (both variants)
    "/api/test-connection-with-credentials",
    "/api/settings",
    "/api/analytics/server/sync-progress",
    -- static/js/settings.js, part_000, part_002, part_003
    "/api/test-connection",
    "/api/jellyfin/system-info",
    "/api/sync",
    "/api/analytics/libraries",
    "/api/analytics/task-logs",
    -- static/js/libraries.js, part_003, part_004
    "/api/analytics/stats/libraries",
    "/api/analytics/items/added-last-30-days",
    -- part_001
    "/api/status",
    "/api/config",
    "/api/notify",
    "/api/jellyfin/test" ]

/-- The activity-log page request (activitylog.js 75-77, part_005 15-17);
`page` and `perPage` are the interpolated values, as strings. -/
def activitylogPath (page perPage : String) : String :=
  "/api/analytics/activitylog?page=" ++ page ++ "&per_page=" ++ perPage

/-- The tracking-toggle request (settings.js line 213); the parameter is
the `encodeURIComponent`-encoded library id. -/
def libraryTrackedPath (encodedJellyfinId : String) : String :=
  "/api/analytics/library/" ++ encodedJellyfinId ++ "/tracked"

/-- A same-origin path under the REST API root. -/
def isApiPath (s : String) : Bool := "/api/".data.isPrefixOf s.data

/-! ## Helper lemmas -/

theorem isPrefixOf_extend {p a : List Char} (b : List Char)
    (h : p.isPrefixOf a = true) : p.isPrefixOf (a ++ b) = true := by
  induction p generalizing a with
  | nil => simp [List.isPrefixOf]
  | cons c cs ih =>
    cases a with
    | nil => simp [List.isPrefixOf] at h
    | cons d ds =>
      simp only [List.cons_append, List.isPrefixOf, Bool.and_eq_true] at h ⊢
      exact ⟨h.1, ih h.2⟩

theorem decode_digitChar : ∀ d : Nat, d < 10 → decodeDigit (Nat.digitChar d) = d := by
  decide

theorem toDigitsCore_acc (b : Nat) :
    ∀ (fuel n : Nat) (ds : List Char),
      Nat.toDigitsCore b fuel n ds = Nat.toDigitsCore b fuel n [] ++ ds := by
  intro fuel
  induction fuel with
  | zero => intro n ds; simp [Nat.toDigitsCore]
  | succ f ih =>
    intro n ds
    simp only [Nat.toDigitsCore]
    by_cases h : n / b = 0
    · simp [h]
    · rw [if_neg h, if_neg h, ih (n / b) (Nat.digitChar (n % b) :: ds),
        ih (n / b) [Nat.digitChar (n % b)], List.append_assoc, List.singleton_append]

theorem decodeDigits_append_singleton (l : List Char) (c : Char) :
    decodeDigits (l ++ [c]) = decodeDigits l * 10 + decodeDigit c := by
  simp [decodeDigits, List.foldl_append]

theorem decode_toDigitsCore :
    ∀ (fuel n : Nat), n < fuel →
      decodeDigits (Nat.toDigitsCore 10 fuel n []) = n := by
  intro fuel
  induction fuel with
  | zero => omega
  | succ f ih =>
    intro n hn
    simp only [Nat.toDigitsCore]
    by_cases h : n / 10 = 0
    · rw [if_pos h]
      have h10 : n < 10 := by omega
      simp [decodeDigits, decode_digitChar n h10, Nat.mod_eq_of_lt h10]
    · rw [if_neg h, toDigitsCore_acc 10 f (n / 10) [Nat.digitChar (n % 10)],
        decodeDigits_append_singleton, ih (n / 10) (by omega),
        decode_digitChar (n % 10) (by omega)]
      omega

theorem toDigits_injective {a b : Nat}
    (h : Nat.toDigits 10 a = Nat.toDigits 10 b) : a = b := by
  have ha := decode_toDigitsCore (a + 1) a (Nat.lt_succ_self a)
  have hb := decode_toDigitsCore (b + 1) b (Nat.lt_succ_self b)
  rw [← ha, ← hb]
  simp only [Nat.toDigits] at h
  rw [h]

theorem mkToastId_injective {a b : Nat} (h : mkToastId a = mkToastId b) : a = b := by
  apply toDigits_injective
  have hd := congrArg String.data h
  simp only [mkToastId, String.data_append, Nat.repr, List.asString] at hd
  exact List.append_cancel_left hd

theorem mapGet_isSome_iff (m : List (String × ToastEntry)) (k : String) :
    (mapGet m k).isSome = true ↔ k ∈ m.map Prod.fst := by
  induction m with
  | nil => simp [mapGet]
  | cons p rest ih =>
    obtain ⟨k', v⟩ := p
    by_cases h : k' = k
    · subst h; simp [mapGet]
    · simp only [mapGet, if_neg h, List.map_cons, List.mem_cons, ih]
      constructor
      · exact Or.inr
      · rintro (h' | h')
        · exact absurd h'.symm h
        · exact h'

theorem mapSet_keys_of_mem {m : List (String × ToastEntry)} {k : String}
    (v : ToastEntry) (h : k ∈ m.map Prod.fst) :
    (mapSet m k v).map Prod.fst = m.map Prod.fst := by
  induction m with
  | nil => simp at h
  | cons p rest ih =>
    obtain ⟨k', w⟩ := p
    by_cases hk : k' = k
    · subst hk; simp [mapSet]
    · have hmem : k ∈ rest.map Prod.fst := by
        simp only [List.map_cons, List.mem_cons] at h
        rcases h with h | h
        · exact absurd h.symm hk
        · exact h
      simp [mapSet, hk, ih hmem]

theorem mapSet_keys_of_notMem {m : List (String × ToastEntry)} {k : String}
    (v : ToastEntry) (h : k ∉ m.map Prod.fst) :
    (mapSet m k v).map Prod.fst = m.map Prod.fst ++ [k] := by
  induction m with
  | nil => simp [mapSet]
  | cons p rest ih =>
    obtain ⟨k', w⟩ := p
    have hk : ¬k' = k := by
      intro hk; exact h (by simp [hk])
    have hrest : k ∉ rest.map Prod.fst := by
      intro hmem; exact h (by simp [hmem])
    simp [mapSet, hk, ih hrest]

theorem mapDelete_keys (m : List (String × ToastEntry)) (k : String) :
    (mapDelete m k).map Prod.fst = keysErase (m.map Prod.fst) k := by
  induction m with
  | nil => rfl
  | cons p rest ih =>
    obtain ⟨k', v⟩ := p
    by_cases h : k' = k <;> simp [mapDelete, keysErase, h, ih]

theorem keysErase_of_notMem {ks : List String} {k : String} (h : k ∉ ks) :
    keysErase ks k = ks := by
  induction ks with
  | nil => rfl
  | cons k' rest ih =>
    have hk : ¬k' = k := by intro hk; exact h (by simp [hk])
    have hrest : k ∉ rest := by intro hmem; exact h (by simp [hmem])
    simp [keysErase, hk, ih hrest]

theorem keysErase_sublist (ks : List String) (k : String) :
    List.Sublist (keysErase ks k) ks := by
  induction ks with
  | nil => simp [keysErase]
  | cons k' rest ih =>
    by_cases h : k' = k
    · rw [keysErase, if_pos h, h]
      exact List.sublist_cons_self k rest
    · simpa [keysErase, h] using List.Sublist.cons₂ k' ih

theorem showToast_fst (m t : String) (ttl : Int) (s : ToastState) :
    (showToast m t ttl s).1 = mkToastId (s.nextId + 1) := rfl

theorem showToast_nextId (m t : String) (ttl : Int) (s : ToastState) :
    (showToast m t ttl s).2.nextId = s.nextId + 1 := rfl

theorem updateToast_fst (id : String) (m t : Option String) (s : ToastState) :
    (updateToast id m t s).1 = (mapGet s.toasts id).isSome := by
  cases h : mapGet s.toasts id <;> simp [updateToast, h]

theorem removeToast_fst (id : String) (s : ToastState) :
    (removeToast id s).1 = (mapGet s.toasts id).isSome := by
  cases h : mapGet s.toasts id <;> simp [removeToast, h]

theorem updateToast_nextId (id : String) (m t : Option String) (s : ToastState) :
    (updateToast id m t s).2.nextId = s.nextId := by
  cases h : mapGet s.toasts id <;> simp [updateToast, h]

theorem removeToast_nextId (id : String) (s : ToastState) :
    (removeToast id s).2.nextId = s.nextId := by
  cases h : mapGet s.toasts id <;> simp [removeToast, h]

theorem updateToast_unchanged_of_absent {id : String} {m t : Option String}
    {s : ToastState} (h : mapGet s.toasts id = none) :
    updateToast id m t s = (false, s) := by
  simp [updateToast, h]

theorem removeToast_unchanged_of_absent {id : String} {s : ToastState}
    (h : mapGet s.toasts id = none) :
    removeToast id s = (false, s) := by
  simp [removeToast, h]

theorem fresh_notMem {s : ToastState} (hinv : ToastInv s) :
    mkToastId (s.nextId + 1) ∉ keys s := by
  intro hmem
  obtain ⟨j, hj1, hj2, hj3⟩ := hinv.2 _ hmem
  have := mkToastId_injective hj3
  omega

theorem keys_showToast {s : ToastState} (m t : String) (ttl : Int)
    (hinv : ToastInv s) :
    keys (showToast m t ttl s).2 = keys s ++ [mkToastId (s.nextId + 1)] := by
  simp only [showToast, keys]
  exact mapSet_keys_of_notMem _ (fresh_notMem hinv)

theorem keys_updateToast (id : String) (m t : Option String) (s : ToastState) :
    keys (updateToast id m t s).2 = keys s := by
  cases h : mapGet s.toasts id with
  | none => simp [updateToast, h]
  | some entry =>
    have hmem : id ∈ s.toasts.map Prod.fst :=
      (mapGet_isSome_iff _ _).1 (by simp [h])
    simp only [updateToast, h, keys]
    exact mapSet_keys_of_mem _ hmem

theorem keys_removeToast (id : String) (s : ToastState) :
    keys (removeToast id s).2 = keysErase (keys s) id := by
  cases h : mapGet s.toasts id with
  | none =>
    have hmem : id ∉ keys s := by
      intro hmem
      have := (mapGet_isSome_iff s.toasts id).2 hmem
      simp [h] at this
    simp [removeToast, h, keysErase_of_notMem hmem]
  | some entry => simp [removeToast, h, keys, mapDelete_keys]

theorem inv_showToast {s : ToastState} (m t : String) (ttl : Int)
    (hinv : ToastInv s) : ToastInv (showToast m t ttl s).2 := by
  constructor
  · rw [keys_showToast m t ttl hinv]
    refine List.Nodup.append hinv.1 (List.nodup_singleton _) ?_
    intro x hx hx'
    simp only [List.mem_singleton] at hx'
    subst hx'
    exact fresh_notMem hinv hx
  · intro k hk
    rw [keys_showToast m t ttl hinv, List.mem_append, List.mem_singleton] at hk
    rw [showToast_nextId]
    rcases hk with hk | hk
    · obtain ⟨j, hj1, hj2, hj3⟩ := hinv.2 _ hk
      exact ⟨j, hj1, by omega, hj3⟩
    · exact ⟨s.nextId + 1, by omega, by omega, hk⟩

theorem inv_updateToast {s : ToastState} (id : String) (m t : Option String)
    (hinv : ToastInv s) : ToastInv (updateToast id m t s).2 := by
  constructor
  · rw [keys_updateToast]; exact hinv.1
  · intro k hk
    rw [keys_updateToast] at hk
    rw [updateToast_nextId]
    exact hinv.2 _ hk

theorem inv_removeToast {s : ToastState} (id : String)
    (hinv : ToastInv s) : ToastInv (removeToast id s).2 := by
  constructor
  · rw [keys_removeToast]
    exact List.Nodup.sublist (keysErase_sublist _ _) hinv.1
  · intro k hk
    rw [keys_removeToast] at hk
    rw [removeToast_nextId]
    exact hinv.2 _ ((keysErase_sublist (keys s) id).subset hk)

theorem inv_applyOp {s : ToastState} (op : ToastOp) (hinv : ToastInv s) :
    ToastInv (applyOp s op) := by
  cases op with
  | doShow m t ttl => exact inv_showToast m t ttl hinv
  | doUpdate id m t => exact inv_updateToast id m t hinv
  | doRemove id => exact inv_removeToast id hinv

theorem inv_initState : ToastInv initState := by
  constructor
  · simp [initState, keys]
  · intro k hk
    simp [initState, keys] at hk

theorem applyOp_nextId_ge (s : ToastState) (op : ToastOp) :
    s.nextId ≤ (applyOp s op).nextId := by
  cases op with
  | doShow m t ttl => rw [applyOp, showToast_nextId]; omega
  | doUpdate id m t => rw [applyOp, updateToast_nextId]
  | doRemove id => rw [applyOp, removeToast_nextId]

theorem showIdsFrom_ids :
    ∀ (ops : List ToastOp) (s : ToastState), ∀ x ∈ showIdsFrom s ops,
      ∃ j, s.nextId + 1 ≤ j ∧ x = mkToastId j := by
  intro ops
  induction ops with
  | nil => intro s x hx; simp [showIdsFrom] at hx
  | cons op rest ih =>
    intro s x hx
    cases op with
    | doShow m t ttl =>
      simp only [showIdsFrom, List.mem_cons] at hx
      rcases hx with hx | hx
      · exact ⟨s.nextId + 1, le_refl _, by rw [hx, showToast_fst]⟩
      · obtain ⟨j, hj1, hj2⟩ := ih _ _ hx
        have : (applyOp s (ToastOp.doShow m t ttl)).nextId = s.nextId + 1 :=
          showToast_nextId m t ttl s
        exact ⟨j, by omega, hj2⟩
    | doUpdate id m t =>
      simp only [showIdsFrom] at hx
      obtain ⟨j, hj1, hj2⟩ := ih _ _ hx
      have : (applyOp s (ToastOp.doUpdate id m t)).nextId = s.nextId :=
        updateToast_nextId id m t s
      exact ⟨j, by omega, hj2⟩
    | doRemove id =>
      simp only [showIdsFrom] at hx
      obtain ⟨j, hj1, hj2⟩ := ih _ _ hx
      have : (applyOp s (ToastOp.doRemove id)).nextId = s.nextId :=
        removeToast_nextId id s
      exact ⟨j, by omega, hj2⟩

theorem showIdsFrom_nodup :
    ∀ (ops : List ToastOp) (s : ToastState), (showIdsFrom s ops).Nodup := by
  intro ops
  induction ops with
  | nil => intro s; simp [showIdsFrom]
  | cons op rest ih =>
    intro s
    cases op with
    | doShow m t ttl =>
      rw [showIdsFrom, List.nodup_cons]
      refine ⟨?_, ih _⟩
      intro hmem
      obtain ⟨j, hj1, hj2⟩ := showIdsFrom_ids rest _ _ hmem
      have hn : (applyOp s (ToastOp.doShow m t ttl)).nextId = s.nextId + 1 :=
        showToast_nextId m t ttl s
      rw [showToast_fst] at hj2
      have := mkToastId_injective hj2
      omega
    | doUpdate id m t => rw [showIdsFrom]; exact ih _
    | doRemove id => rw [showIdsFrom]; exact ih _

theorem execFrom_spec :
    ∀ (ops : List ToastOp) (s : ToastState), ToastInv s →
      ToastInv (execFrom s ops)
      ∧ keys (execFrom s ops) = liveIdsAux ops s.nextId (keys s) := by
  intro ops
  induction ops with
  | nil => intro s h; exact ⟨h, rfl⟩
  | cons op rest ih =>
    intro s hinv
    have hstep : execFrom s (op :: rest) = execFrom (applyOp s op) rest := rfl
    obtain ⟨h1, h2⟩ := ih (applyOp s op) (inv_applyOp op hinv)
    rw [hstep]
    refine ⟨h1, ?_⟩
    rw [h2]
    cases op with
    | doShow m t ttl =>
      have ha : (applyOp s (ToastOp.doShow m t ttl)).nextId = s.nextId + 1 :=
        showToast_nextId m t ttl s
      have hb : keys (applyOp s (ToastOp.doShow m t ttl)) =
          keys s ++ [mkToastId (s.nextId + 1)] := keys_showToast m t ttl hinv
      rw [ha, hb, liveIdsAux]
    | doUpdate id m t =>
      have ha : (applyOp s (ToastOp.doUpdate id m t)).nextId = s.nextId :=
        updateToast_nextId id m t s
      have hb : keys (applyOp s (ToastOp.doUpdate id m t)) = keys s :=
        keys_updateToast id m t s
      rw [ha, hb, liveIdsAux]
    | doRemove id =>
      have ha : (applyOp s (ToastOp.doRemove id)).nextId = s.nextId :=
        removeToast_nextId id s
      have hb : keys (applyOp s (ToastOp.doRemove id)) = keysErase (keys s) id :=
        keys_removeToast id s
      rw [ha, hb, liveIdsAux]

theorem keys_execTrace (ops : List ToastOp) : keys (execTrace ops) = liveIds ops := by
  have h := (execFrom_spec ops initState inv_initState).2
  rw [execTrace] at *
  rw [h]
  rfl

/-- Claim C8: over every sequence of toast operations, each `showToast`
call returns an id distinct from every id returned by an earlier
`showToast` call; `updateToast(id, ...)` and `removeToast(id)` return
`true` exactly when `id` was issued by some `showToast` call and not yet
removed, and when they return `false` they leave the registry (including
every registered toast) unchanged. -/
theorem C8_toast_registry (ops : List ToastOp) (id : String) (m t : Option String) :
    (showIds ops).Nodup
    ∧ ((updateToast id m t (execTrace ops)).1 = true ↔ id ∈ liveIds ops)
    ∧ ((removeToast id (execTrace ops)).1 = true ↔ id ∈ liveIds ops)
    ∧ ((updateToast id m t (execTrace ops)).1 = false →
        (updateToast id m t (execTrace ops)).2 = execTrace ops)
    ∧ ((removeToast id (execTrace ops)).1 = false →
        (removeToast id (execTrace ops)).2 = execTrace ops) := by
  have hkeys : (execTrace ops).toasts.map Prod.fst = liveIds ops := keys_execTrace ops
  refine ⟨showIdsFrom_nodup ops initState, ?_, ?_, ?_, ?_⟩
  · rw [updateToast_fst, mapGet_isSome_iff, hkeys]
  · rw [removeToast_fst, mapGet_isSome_iff, hkeys]
  · intro hfalse
    have hnone : mapGet (execTrace ops).toasts id = none := by
      cases h : mapGet (execTrace ops).toasts id with
      | none => rfl
      | some e => rw [updateToast_fst, h] at hfalse; simp at hfalse
    rw [updateToast_unchanged_of_absent hnone]
  · intro hfalse
    have hnone : mapGet (execTrace ops).toasts id = none := by
      cases h : mapGet (execTrace ops).toasts id with
      | none => rfl
      | some e => rw [removeToast_fst, h] at hfalse; simp at hfalse
    rw [removeToast_unchanged_of_absent hnone]

/-- Witness for C8, instantiated on the one-show trace with an id that was
never issued: `updateToast` leaves the state unchanged. -/
theorem C8_toast_registry_witness :
    (updateToast (mkToastId 2) none none
        (execTrace [ToastOp.doShow "a" "success" 5000])).2
      = execTrace [ToastOp.doShow "a" "success" 5000] :=
  (C8_toast_registry [ToastOp.doShow "a" "success" 5000]
      (mkToastId 2) none none).2.2.2.1 (by decide)

/-- Claim C4 counterexample: from a state violating the consistency
property of the registry (the registry already holds `toast-1` while the
counter is 0) `showToast` returns an id that is already registered, and
the `Map.set` silently replaces the old entry instead of adding a new
toast.  The registry therefore does carry a consistency property that the
operations must keep. -/
theorem C4_counterexample :
    (showToast "msg" "success" 5000 badToastState).1 ∈ keys badToastState
    ∧ keys (showToast "msg" "success" 5000 badToastState).2 = keys badToastState := by
  constructor <;> decide

/-- Claim C4, amended: the toast registry does maintain a consistency
property — registered ids are distinct and all generated by the counter —
which holds initially, is preserved by `showToast`, `updateToast` and
`removeToast`, and is what makes the id returned by `showToast` fresh. -/
theorem C4_registry_invariant :
    ToastInv initState
    ∧ (∀ (s : ToastState) (m t : String) (ttl : Int), ToastInv s →
        ToastInv (showToast m t ttl s).2 ∧ (showToast m t ttl s).1 ∉ keys s)
    ∧ (∀ (s : ToastState) (id : String) (m t : Option String), ToastInv s →
        ToastInv (updateToast id m t s).2)
    ∧ (∀ (s : ToastState) (id : String), ToastInv s →
        ToastInv (removeToast id s).2) := by
  refine ⟨inv_initState, ?_, ?_, ?_⟩
  · intro s m t ttl hinv
    refine ⟨inv_showToast m t ttl hinv, ?_⟩
    rw [showToast_fst]
    exact fresh_notMem hinv
  · intro s id m t hinv
    exact inv_updateToast id m t hinv
  · intro s id hinv
    exact inv_removeToast id hinv

/-- Witness for the amended C4, at the initial state. -/
theorem C4_registry_invariant_witness :
    ToastInv (showToast "hello" "success" 5000 initState).2
    ∧ (showToast "hello" "success" 5000 initState).1 ∉ keys initState :=
  C4_registry_invariant.2.1 initState "hello" "success" 5000
    C4_registry_invariant.1

/-- Claim C5: every request any file issues is a `fetch` of a same-origin
path under `/api/`: this holds for each fixed path and for both
parameterised path templates, whatever values are interpolated. -/
theorem C5_fetch_targets (page perPage id : String) :
    staticFetchPaths.all isApiPath = true
    ∧ isApiPath (activitylogPath page perPage) = true
    ∧ isApiPath (libraryTrackedPath id) = true := by
  refine ⟨by decide, ?_, ?_⟩
  · show ("/api/".data.isPrefixOf (activitylogPath page perPage).data) = true
    simp only [activitylogPath, String.data_append]
    exact isPrefixOf_extend _ (isPrefixOf_extend _ (isPrefixOf_extend _ (by decide)))
  · show ("/api/".data.isPrefixOf (libraryTrackedPath id).data) = true
    simp only [libraryTrackedPath, String.data_append]
    exact isPrefixOf_extend _ (isPrefixOf_extend _ (by decide))

theorem paginationWindow_bounds (c T : Int) (h1 : 1 ≤ c) (h2 : c ≤ T) :
    1 ≤ (paginationWindow c T).1
    ∧ (paginationWindow c T).1 ≤ c
    ∧ c ≤ (paginationWindow c T).2
    ∧ (paginationWindow c T).2 ≤ T
    ∧ (paginationWindow c T).2 + 1 - (paginationWindow c T).1
        = min MAX_PAGE_BUTTONS T := by
  simp only [paginationWindow, MAX_PAGE_BUTTONS]
  split_ifs with h <;> omega

theorem pagesFrom_length (a b : Int) :
    ((pagesFrom a b).length : Int) = max (b + 1 - a) 0 := by
  rw [pagesFrom, List.length_map, List.length_range]
  omega

/-- Claim C6: for `1 ≤ current ≤ totalPages`, `renderPaginationControls`
renders exactly `min(MAX_PAGE_BUTTONS, totalPages)` numbered buttons
forming a contiguous range around the current page and inside
`[1, totalPages]`, and disables first/prev exactly on `current ≤ 1` and
next/last exactly on `current ≥ totalPages`. -/
theorem C6_pagination (c T : Int) (h1 : 1 ≤ c) (h2 : c ≤ T) :
    (((renderPaginationControls c T).pages.length : Int) = min MAX_PAGE_BUTTONS T)
    ∧ (∃ s e, 1 ≤ s ∧ s ≤ c ∧ c ≤ e ∧ e ≤ T ∧
        (renderPaginationControls c T).pages = pagesFrom s e)
    ∧ ((renderPaginationControls c T).firstDisabled = true ↔ c ≤ 1)
    ∧ ((renderPaginationControls c T).prevDisabled = true ↔ c ≤ 1)
    ∧ ((renderPaginationControls c T).nextDisabled = true ↔ T ≤ c)
    ∧ ((renderPaginationControls c T).lastDisabled = true ↔ T ≤ c) := by
  obtain ⟨b1, b2, b3, b4, b5⟩ := paginationWindow_bounds c T h1 h2
  refine ⟨?_, ⟨(paginationWindow c T).1, (paginationWindow c T).2,
    b1, b2, b3, b4, rfl⟩, by simp [renderPaginationControls],
    by simp [renderPaginationControls], by simp [renderPaginationControls],
    by simp [renderPaginationControls]⟩
  show ((pagesFrom (paginationWindow c T).1 (paginationWindow c T).2).length : Int) = _
  rw [pagesFrom_length]
  simp only [MAX_PAGE_BUTTONS] at b5 ⊢
  omega

/-- Witness for C6 at `current = 2`, `totalPages = 5`. -/
theorem C6_pagination_witness :
    (((renderPaginationControls 2 5).pages.length : Int) = min MAX_PAGE_BUTTONS 5)
    ∧ (∃ s e, 1 ≤ s ∧ s ≤ 2 ∧ 2 ≤ e ∧ e ≤ 5 ∧
        (renderPaginationControls 2 5).pages = pagesFrom s e)
    ∧ ((renderPaginationControls 2 5).firstDisabled = true ↔ (2 : Int) ≤ 1)
    ∧ ((renderPaginationControls 2 5).prevDisabled = true ↔ (2 : Int) ≤ 1)
    ∧ ((renderPaginationControls 2 5).nextDisabled = true ↔ (5 : Int) ≤ 2)
    ∧ ((renderPaginationControls 2 5).lastDisabled = true ↔ (5 : Int) ≤ 2) :=
  C6_pagination 2 5 (by decide) (by decide)

/-- Claim C7, evaluated on the code: `paletteFor` is correct at `n ≤ 0`
(empty array) and at `n = 3` (three defined colours), but at `n = 1` the
index expression divides by `n - 1 = 0`, `Math.round(0 / 0)` is `NaN`, and
`base[NaN]` is `undefined`: the function returns a one-element array whose
sole entry is undefined. -/
theorem C7_paletteFor_eval :
    paletteFor 1 = [none]
    ∧ paletteFor 0 = []
    ∧ paletteFor (-3) = []
    ∧ paletteFor 3 = [some "#c3d1dd", some "#6d8ca3", some "#004c6d"] := by
  refine ⟨?_, by simp [paletteFor], by simp [paletteFor], ?_⟩
  · rw [paletteFor, if_neg (by norm_num), if_pos (by decide)]
    have hr : List.range (1 : ℤ).toNat = [0] := by decide
    rw [hr, List.map_cons, List.map_nil]
    norm_num [jsDivQ, paletteBase, baseIndex]
  · rw [paletteFor, if_neg (by norm_num), if_pos (by decide)]
    have hr : List.range (3 : ℤ).toNat = [0, 1, 2] := by decide
    rw [hr, List.map_cons, List.map_cons, List.map_cons, List.map_nil]
    norm_num [jsDivQ, paletteBase, baseIndex, jsRound]
    exact ⟨rfl, rfl⟩

/-- Claim C1 counterexample: the three cited failure handlers do more than
show an error toast.  On a failed fetch, `loadPage` renders the
empty-state view, `pollProgress` (before its deadline) schedules a retry
of the request, and the library-tracking handler rolls the checkbox back
to its previous state. -/
theorem C1_counterexample :
    ¬ (onlyErrorToast (loadPageOnFailure "Network error")
       ∧ onlyErrorToast (pollProgressOnFailure 1000 0)
       ∧ onlyErrorToast (libraryToggleOnFailure "Movies" true none)) := by
  intro h
  obtain ⟨m, hm⟩ := h.1 UiEffect.renderEmptyState (by simp [loadPageOnFailure])
  simp at hm

/-- Claim C1, amended: on a failed fetch the cited operations show an
error toast at most, plus exactly the following: `loadPage` renders the
empty state and re-enables navigation; `pollProgress` logs and retries
itself after `POLL_INTERVAL` until `TIMEOUT_MS` has elapsed, after which
it toasts and redirects; the library-tracking handler rolls the checkbox
back, toasts, and re-enables the checkbox. -/
theorem C1_failure_handling :
    (∀ err, loadPageOnFailure err =
      [ UiEffect.showToast ("Failed to load activity log: " ++ err) "error",
        UiEffect.renderEmptyState,
        UiEffect.setNavigationDisabled false ])
    ∧ (∀ nowMs startTs : Int, nowMs - startTs ≤ (TIMEOUT_MS : Int) →
        pollProgressOnFailure nowMs startTs =
          [ UiEffect.consoleError,
            UiEffect.scheduleCall "pollProgress" POLL_INTERVAL ])
    ∧ (∀ nowMs startTs : Int, (TIMEOUT_MS : Int) < nowMs - startTs →
        pollProgressOnFailure nowMs startTs =
          [ UiEffect.consoleError,
            UiEffect.showToast "Unable to determine sync progress — continuing" "error",
            UiEffect.redirect "/" ])
    ∧ (∀ name prev msg, libraryToggleOnFailure name prev msg =
        [ UiEffect.setCheckboxChecked prev,
          UiEffect.showToast (name ++ ": " ++ jsOrString msg "Failed to update tracking") "error",
          UiEffect.setCheckboxDisabled false ]) := by
  refine ⟨fun err => rfl, ?_, ?_, fun name prev msg => rfl⟩
  · intro nowMs startTs h
    rw [pollProgressOnFailure, if_neg (by omega)]
  · intro nowMs startTs h
    rw [pollProgressOnFailure, if_pos (by omega)]

/-- Witness for the amended C1: one second into polling, a failed fetch
leads to a retry. -/
theorem C1_failure_handling_witness :
    pollProgressOnFailure 1000 0 =
      [ UiEffect.consoleError,
        UiEffect.scheduleCall "pollProgress" POLL_INTERVAL ] :=
  C1_failure_handling.2.1 1000 0 (by norm_num [TIMEOUT_MS])

/-- Claim C2 counterexample: the program does use the three mechanisms the
claim rules out.  With the `testingConnection` flag set, a click issues no
request (an in-flight guard); a syncing response makes
`checkSyncProgress` re-schedule itself (a repeated polling loop); and the
test-connection `finally` re-enables its button only after a fixed 5000 ms
delay (a cooldown). -/
theorem C2_counterexample :
    ¬ ( (∀ s : FirstStartTestState, (firstStartTestClick "host" "8096" "key" s).2 = true)
      ∧ (∀ (r : SyncProgressResp) (d : Nat),
          UiEffect.scheduleCall "checkSyncProgress" d ∉ checkSyncProgressStep r)
      ∧ (∀ (t tgt : String) (d : Nat),
          UiEffect.scheduleCall tgt d ∉ testConnectionCooldown t) ) := by
  intro h
  have hguard := h.1 { lastTestOk := false, testingConnection := true,
                       testBtnDisabled := true, addBtnDisabled := true }
  simp [firstStartTestClick] at hguard

/-- Claim C2, amended: `scheduleSave` is indeed a trivial debounce (cancel
the pending save, re-schedule after 200 ms), but the program also
coordinates overlapping work with an in-flight guard flag
(`testingConnection`: a click issues a request exactly when the fields are
non-empty and no test is in flight), a repeated polling loop
(`checkSyncProgress` re-schedules itself after 2000 ms while syncing), and
a fixed 5000 ms cooldown that re-enables the test-connection button. -/
theorem C2_coordination :
    (∀ (payload : String) (pending : Option (String × Nat)),
        scheduleSave payload pending = (some (payload, 200), pending.isSome))
    ∧ (∀ (h p k : String) (s : FirstStartTestState),
        (firstStartTestClick h p k s).2 = true ↔
          (¬(h = "" ∨ p = "" ∨ k = "") ∧ s.testingConnection = false))
    ∧ (∀ r : SyncProgressResp, r.ok = true → r.syncing = true →
        UiEffect.scheduleCall "checkSyncProgress" 2000 ∈ checkSyncProgressStep r)
    ∧ (∀ t : String,
        UiEffect.scheduleCall "enable-jf-test-connection-btn" 5000
          ∈ testConnectionCooldown t) := by
  refine ⟨fun payload pending => rfl, ?_, ?_, fun t => by simp [testConnectionCooldown]⟩
  · intro h p k s
    rw [firstStartTestClick]
    by_cases h1 : h = "" ∨ p = "" ∨ k = ""
    · simp [h1]
    · by_cases h2 : s.testingConnection
      · simp [h1, h2]
      · simp [h1, h2]
  · intro r hok hsync
    simp [checkSyncProgressStep, hok, hsync]

/-- Witness for the amended C2: a click with filled fields and no test in
flight issues the request. -/
theorem C2_coordination_witness :
    (firstStartTestClick "host" "8096" "key"
      { lastTestOk := false, testingConnection := false,
        testBtnDisabled := false, addBtnDisabled := true }).2 = true :=
  (C2_coordination.2.1 "host" "8096" "key"
    { lastTestOk := false, testingConnection := false,
      testBtnDisabled := false, addBtnDisabled := true }).2
    (by refine ⟨?_, rfl⟩; simp)

theorem hitsCell_iff (nowDay days w wd : Nat) (it : ActivityItem) :
    hitsCell nowDay days w wd it = true ↔
      (itemTs it ≠ 0 ∧ 0 ≤ itemIndex nowDay days it
        ∧ itemIndex nowDay days it < (days : Int)
        ∧ itemIndex nowDay days it / 7 < (weeksOf days : Int)
        ∧ w = (itemIndex nowDay days it / 7).toNat
        ∧ wd = (itemDayNumber it + 4) % 7) := by
  simp [hitsCell, Bool.and_eq_true, decide_eq_true_eq, and_assoc]

theorem processItem_apply (nowDay days : Nat) (b : Nat → Nat → Nat)
    (it : ActivityItem) (w wd : Nat) :
    processItem nowDay days b it w wd =
      b w wd + (if hitsCell nowDay days w wd it then 1 else 0) := by
  by_cases h0 : itemTs it = 0
  · have hc : hitsCell nowDay days w wd it = false := by
      rw [Bool.eq_false_iff]
      intro hc
      exact ((hitsCell_iff nowDay days w wd it).1 hc).1 h0
    simp [processItem, h0, hc]
  · rw [processItem, if_neg h0]
    simp only []
    by_cases h1 : itemIndex nowDay days it < 0 ∨ (days : Int) ≤ itemIndex nowDay days it
    · have hc : hitsCell nowDay days w wd it = false := by
        rw [Bool.eq_false_iff]
        intro hc
        obtain ⟨_, c2, c3, _⟩ := (hitsCell_iff nowDay days w wd it).1 hc
        omega
      rw [if_pos h1, hc]
      simp
    · rw [if_neg h1]
      by_cases h2 : itemIndex nowDay days it / 7 < 0
        ∨ (weeksOf days : Int) ≤ itemIndex nowDay days it / 7
      · have hc : hitsCell nowDay days w wd it = false := by
          rw [Bool.eq_false_iff]
          intro hc
          obtain ⟨_, c2, c3, c4, _⟩ := (hitsCell_iff nowDay days w wd it).1 hc
          omega
        rw [if_pos h2, hc]
        simp
      · rw [if_neg h2]
        by_cases h3 : w = (itemIndex nowDay days it / 7).toNat
          ∧ wd = (itemDayNumber it + 4) % 7
        · have hc : hitsCell nowDay days w wd it = true :=
            (hitsCell_iff nowDay days w wd it).2 ⟨h0, by omega, by omega, by omega, h3.1, h3.2⟩
          rw [hc, bumpBucket]
          simp [h3]
        · have hc : hitsCell nowDay days w wd it = false := by
            rw [Bool.eq_false_iff]
            intro hc
            obtain ⟨_, _, _, _, c5, c6⟩ := (hitsCell_iff nowDay days w wd it).1 hc
            exact h3 ⟨c5, c6⟩
          rw [hc, bumpBucket]
          simp [h3]

theorem foldl_processItem (nowDay days : Nat) :
    ∀ (items : List ActivityItem) (b : Nat → Nat → Nat) (w wd : Nat),
      items.foldl (processItem nowDay days) b w wd
        = b w wd + items.countP (hitsCell nowDay days w wd) := by
  intro items
  induction items with
  | nil => intro b w wd; simp
  | cons it rest ih =>
    intro b w wd
    rw [List.foldl_cons, ih, List.countP_cons, processItem_apply]
    by_cases hit : hitsCell nowDay days w wd it = true
    · simp only [hit, if_true, if_pos]
      omega
    · simp [hit]

/-- Claim C3: the most transformation-heavy computation of the code base,
the aggregation of `buildMatrix`, is nothing but a per-cell count: the bucket
grid equals, at every cell, the number of input items whose (skip,
day-window, week, weekday) conditions select that cell — a plain
histogram for rendering, with no algorithmic content beyond it. -/
theorem C3_buildMatrix_histogram (nowDay days : Nat) (items : List ActivityItem)
    (w wd : Nat) :
    buildMatrixBuckets nowDay days items w wd
      = items.countP (hitsCell nowDay days w wd) := by
  rw [buildMatrixBuckets, foldl_processItem]
  simp

end Finbot
